import Mathlib

/-!
Shallow embedding of `src/app.js` (a weather dashboard for the NWS API).

The embedded parts are the ones the verified properties are about:
unit converters (`degToCompass`), the alert identity key (`alertKey`),
the alert aggregation pipeline of `fetchAlertsCombined` (zone filtering,
point-then-zone merge, deduplication), the severity sort performed in
`renderAlertsForPrimary`, the station-observation selector
(`getNearestObservationParallel`), the endpoint resolver with its cache
(`resolveEndpointsForPoint`), and the auto-refresh backoff computation of
`startAlertsAutoRefresh`.

Conventions of the embedding:
* JS objects with optional fields become structures of `Option` fields; a
  missing `properties` object behaves like an object with every field absent.
* JS truthiness tests on strings (`if (x)`, `x || y`, `!!x`) are embedded by
  `strTruthy`, under which a missing value and the empty string are falsy.
* `Date` parsing and `Date.now()` are abstracted by a parameter
  `parse : String → Int` together with a current time `now : Int`; the code
  only ever compares the resulting millisecond numbers.
* `Array.prototype.sort` (stable per ECMAScript 2019+) with a comparator
  that induces a total preorder has a unique possible output, embedded here
  as the stable insertion sort `stableSort`.
* Network effects are made explicit: the aggregator core takes the list of
  per-query outcomes; the endpoint resolver takes the would-be `/points`
  response and reports how many network calls it made.
-/

namespace Weather

/-- JS string truthiness for an optional string field: a missing value
(`undefined`/`null`) and the empty string are falsy. -/
def strTruthy : Option String → Bool
  | some s => s ≠ ""
  | none => false

/-- The first truthy value of a JS `a || b || ...` chain over optional
strings, `none` when every link is falsy. -/
def firstTruthy (l : List (Option String)) : Option String :=
  (l.filterMap id).find? (fun s => s ≠ "")

/-- JS `String.prototype.startsWith`, over the character data. -/
def jsStartsWith (s p : String) : Bool :=
  p.data.isPrefixOf s.data

/-- Lexicographic comparison of character data by code point; on ISO-8601
UTC timestamp strings this is the chronological order. -/
def strLeData : List Char → List Char → Bool
  | [], _ => true
  | _ :: _, [] => false
  | a :: as, b :: bs =>
    if a.toNat < b.toNat then true
    else if b.toNat < a.toNat then false
    else strLeData as bs

/-- The smaller of two strings in the order of `strLeData`. -/
def strMin (a b : String) : String :=
  if strLeData a.data b.data then a else b

/-- Properties of an alert GeoJSON feature, as accessed by `src/app.js`
(lines 155-166 and 249-256). -/
structure AlertProps where
  pid : Option String := none
  atId : Option String := none
  event : Option String := none
  sent : Option String := none
  effective : Option String := none
  onset : Option String := none
  severity : Option String := none
  ugc : Option (List String) := none
  deriving DecidableEq

/-- An alert GeoJSON feature: top-level `id` plus its `properties` object
(`f?.properties || {}` makes a missing object equal to the empty one). -/
structure Feature where
  fid : Option String := none
  properties : AlertProps := {}
  deriving DecidableEq

/-- `alertKey` (src/app.js lines 155-162): feature `id`, else
`properties.id`, else `properties["@id"]`, else
`` `${p.event || 'Unknown'}|${p.sent || p.effective || p.onset || ''}` ``. -/
def alertKey (f : Feature) : String :=
  if strTruthy f.fid then f.fid.getD "" else
  let p := f.properties
  if strTruthy p.pid then p.pid.getD "" else
  if strTruthy p.atId then p.atId.getD "" else
  let sent := (if strTruthy p.sent then p.sent else
               if strTruthy p.effective then p.effective else
               if strTruthy p.onset then p.onset else none).getD ""
  (if strTruthy p.event then p.event.getD "" else "Unknown") ++ "|" ++ sent

/-- `zonesFromAlert` (src/app.js lines 163-166): `properties.geocode.UGC`
when it is an array, `[]` otherwise. -/
def zonesFromAlert (f : Feature) : List String :=
  (f.properties.ugc).getD []

/-- Modelled from the spec: the spec reads the fallback identity key as
"a composite of the event name and the earliest of the feature's
timestamps".  "Earliest" is the chronological minimum of the present
timestamps; ISO-8601 UTC timestamp strings compare chronologically by
their lexicographic string order, which is the order used here. -/
def alertKeySpec (f : Feature) : String :=
  if strTruthy f.fid then f.fid.getD "" else
  let p := f.properties
  if strTruthy p.pid then p.pid.getD "" else
  if strTruthy p.atId then p.atId.getD "" else
  let ts := ([p.sent, p.effective, p.onset].filterMap id).filter (fun s => s ≠ "")
  let earliest := match ts with
    | [] => ""
    | t :: rest => rest.foldl strMin t
  (if strTruthy p.event then p.event.getD "" else "Unknown") ++ "|" ++ earliest

/-- Restatement of `alertKey` by priority search, used to express the
amended claim C8 without the nested conditionals of the source. -/
def alertKeyAmended (f : Feature) : String :=
  match firstTruthy [f.fid, f.properties.pid, f.properties.atId] with
  | some i => i
  | none =>
    let sent := (firstTruthy [f.properties.sent, f.properties.effective, f.properties.onset]).getD ""
    ((f.properties.event).filter (fun s => s ≠ "")).getD "Unknown" ++ "|" ++ sent

/-- One settled alert query of `fetchAlertsCombined` (src/app.js lines
176-185): its label (`"point:…"` or `"zone:…"`), success flag, and the
`features` array (empty on failure). -/
structure QueryResult where
  label : String
  ok : Bool := true
  features : List Feature := []
  deriving DecidableEq

/-- src/app.js line 187: features of the first result labelled `point:`. -/
def pointFeatures (results : List QueryResult) : List Feature :=
  ((results.find? (fun r => jsStartsWith r.label "point:")).map (fun r => r.features)).getD []

/-- src/app.js line 188: concatenated features of all `zone:` results. -/
def zoneFeaturesAll (results : List QueryResult) : List Feature :=
  (results.filter (fun r => jsStartsWith r.label "zone:")).flatMap (fun r => r.features)

/-- src/app.js lines 190-193: keep a zone feature only when its own UGC
list meets the point's resolved zone-code set. -/
def zoneFiltered (zoneCodes : List String) (results : List QueryResult) : List Feature :=
  (zoneFeaturesAll results).filter
    (fun f => (zonesFromAlert f).any (fun z => zoneCodes.contains z))

/-- src/app.js line 195: point features first, then the filtered zone
features. -/
def mergedAll (zoneCodes : List String) (results : List QueryResult) : List Feature :=
  pointFeatures results ++ zoneFiltered zoneCodes results

/-- src/app.js lines 197-204: the first-occurrence deduplication loop over
`alertKey`, with `seen` the set of keys already emitted. -/
def dedupByKey : List Feature → List String → List Feature
  | [], _ => []
  | f :: rest, seen =>
    if seen.contains (alertKey f) then dedupByKey rest seen
    else f :: dedupByKey rest (alertKey f :: seen)

/-- The pure core of `fetchAlertsCombined` (src/app.js lines 187-206),
taking the settled query outcomes: merge point-then-filtered-zone results
and deduplicate by `alertKey`, keeping first occurrences. -/
def fetchAlertsCombined (zoneCodes : List String) (results : List QueryResult) : List Feature :=
  dedupByKey (mergedAll zoneCodes results) []

/-- `SEVERITY_ORDER[sev] || 0` (src/app.js lines 108 and 250-251): the
severity table lookup with `0` for an unrecognized or missing severity. -/
def SEVERITY_ORDER (sev : Option String) : Nat :=
  match sev with
  | some "Extreme" => 5
  | some "Severe" => 4
  | some "Moderate" => 3
  | some "Minor" => 2
  | some "Unknown" => 1
  | _ => 0

/-- The sort-key time of an alert (src/app.js lines 253-254):
`new Date(p.onset || p.effective || Date.now()).getTime()`. -/
def sortTime (parse : String → Int) (now : Int) (f : Feature) : Int :=
  if strTruthy f.properties.onset then parse (f.properties.onset.getD "")
  else if strTruthy f.properties.effective then parse (f.properties.effective.getD "")
  else now

/-- `cmp a b ≤ 0` for the alert comparator of src/app.js lines 249-256:
severity descending, then sort-key time ascending. -/
def alertLE (parse : String → Int) (now : Int) (a b : Feature) : Bool :=
  decide (SEVERITY_ORDER b.properties.severity < SEVERITY_ORDER a.properties.severity) ||
  (decide (SEVERITY_ORDER a.properties.severity = SEVERITY_ORDER b.properties.severity) &&
   decide (sortTime parse now a ≤ sortTime parse now b))

/-- Insert into a sorted list after every element already `le` the new one;
this is the insertion step of a stable insertion sort. -/
def insertSorted (le : α → α → Bool) (a : α) : List α → List α
  | [] => [a]
  | b :: bs => if le b a then b :: insertSorted le a bs else a :: b :: bs

/-- Stable sort by a Boolean total preorder, as ECMAScript 2019+ mandates
for `Array.prototype.sort`; for such a comparator the stable result is
unique, so this embeds the `active.sort(...)` call faithfully. -/
def stableSort (le : α → α → Bool) (l : List α) : List α :=
  l.foldl (fun acc a => insertSorted le a acc) []

/-- The sort applied to the deduplicated alerts before rendering
(src/app.js lines 249-256). -/
def sortAlerts (parse : String → Int) (now : Int) (fs : List Feature) : List Feature :=
  stableSort (alertLE parse now) fs

/-- Observation properties as accessed by the selector (src/app.js lines
396-414): the `.value` members, the text description and the timestamp. -/
structure ObsProps where
  temperature : Option Int := none
  relativeHumidity : Option Int := none
  windSpeed : Option Int := none
  windDirection : Option Int := none
  textDescription : Option String := none
  timestamp : Option String := none
  deriving DecidableEq

/-- The fulfilled value `{ p: latest?.properties, id: f.id }` built on
src/app.js line 394. -/
structure ObsValue where
  p : Option ObsProps := none
  id : String := ""
  deriving DecidableEq

/-- One outcome of `Promise.allSettled` over the station requests. -/
inductive Settled where
  | fulfilled (v : ObsValue)
  | rejected
  deriving DecidableEq

/-- The completeness score (src/app.js lines 396-405). -/
def score (p : ObsProps) : Nat :=
  let hasTemp := p.temperature.isSome
  let hasHumidity := p.relativeHumidity.isSome
  let hasWindSpd := p.windSpeed.isSome
  let hasWindDir := p.windDirection.isSome
  let hasDesc := strTruthy p.textDescription
  if hasTemp && hasHumidity && hasWindSpd && hasWindDir then 3
  else if hasTemp && hasDesc then 2
  else if hasTemp || hasDesc then 1 else 0

/-- The tie-break time of an observation (src/app.js lines 412-413):
`new Date(p.timestamp || Date.now()).getTime()`. -/
def obsTime (parse : String → Int) (now : Int) (p : ObsProps) : Int :=
  if strTruthy p.timestamp then parse (p.timestamp.getD "") else now

/-- src/app.js lines 406-408: keep only fulfilled outcomes with a truthy
properties body. -/
def usableOf (results : List Settled) : List ObsValue :=
  results.filterMap (fun r =>
    match r with
    | Settled.fulfilled v => if v.p.isSome then some v else none
    | Settled.rejected => none)

/-- `cmp a b ≤ 0` for the observation comparator of src/app.js lines
409-415: score descending, then timestamp ascending. -/
def obsLE (parse : String → Int) (now : Int) (a b : ObsValue) : Bool :=
  decide (score (b.p.getD {}) < score (a.p.getD {})) ||
  (decide (score (a.p.getD {}) = score (b.p.getD {})) &&
   decide (obsTime parse now (a.p.getD {}) ≤ obsTime parse now (b.p.getD {})))

/-- The pure core of `getNearestObservationParallel` (src/app.js lines
390-418), taking the settled request outcomes: filter to usable
candidates, sort by score then timestamp, return the best one's
properties, or fail when no candidate remains. -/
def getNearestObservationParallel (parse : String → Int) (now : Int)
    (results : List Settled) : Except String ObsProps :=
  match stableSort (obsLE parse now) (usableOf results) with
  | u :: _ => Except.ok (u.p.getD {})
  | [] => Except.error "No recent observations available from nearby stations."

/-- The three endpoint URLs resolved from `/points` (src/app.js line 385). -/
structure EndpointSet where
  hourlyUrl : String
  dailyUrl : String
  stationsUrl : String
  deriving DecidableEq

/-- The `/points` response fields the resolver reads (src/app.js lines
381-383). -/
structure PointsProps where
  forecastHourly : Option String := none
  forecast : Option String := none
  observationStations : Option String := none
  deriving DecidableEq

/-- `keyFromLatLon` (src/app.js line 375), over the string renderings of
the coordinates. -/
def keyFromLatLon (lat lon : String) : String := lat ++ "," ++ lon

/-- Lookup in the endpoint cache (`endpointCache.has`/`.get`). -/
def cacheGet (c : List (String × EndpointSet)) (k : String) : Option EndpointSet :=
  ((c.find? (fun e => e.1 == k)).map (fun e => e.2))

/-- `endpointCache.set` on a fresh key (the resolver only inserts on a
cache miss, so appending is the exact behaviour). -/
def cacheSet (c : List (String × EndpointSet)) (k : String) (v : EndpointSet) :
    List (String × EndpointSet) :=
  c ++ [(k, v)]

/-- The outcome of one `resolveEndpointsForPoint` call: its result, the
cache afterwards, and how many network requests were issued. -/
structure ResolveOutcome where
  result : Except String EndpointSet
  cache : List (String × EndpointSet)
  networkCalls : Nat

/-- `resolveEndpointsForPoint` (src/app.js lines 377-388) with the network
made explicit: `points` is the `/points` response that the one network
call would return; on a cache hit that call never happens. -/
def resolveEndpointsForPoint (cache : List (String × EndpointSet)) (lat lon : String)
    (points : PointsProps) : ResolveOutcome :=
  let key := keyFromLatLon lat lon
  match cacheGet cache key with
  | some v => ⟨Except.ok v, cache, 0⟩
  | none =>
    if strTruthy points.forecastHourly && strTruthy points.forecast &&
       strTruthy points.observationStations then
      let value : EndpointSet :=
        ⟨points.forecastHourly.getD "", points.forecast.getD "", points.observationStations.getD ""⟩
      ⟨Except.ok value, cacheSet cache key value, 1⟩
    else
      ⟨Except.error "Could not resolve NWS endpoints from /points.", cache, 1⟩

/-- The next-delay update of one scheduler tick (src/app.js lines 349-354):
success resets to the base interval, failure doubles with a cap. -/
def tickNextDelay (intervalMs maxBackoffMs nextDelay : Nat) (failed : Bool) : Nat :=
  if failed then min (nextDelay * 2) maxBackoffMs else intervalMs

/-- The next-delay value after a sequence of tick outcomes (`true` =
failed), starting from the initial `nextDelay = intervalMs` of
src/app.js line 342. -/
def runTicks (intervalMs maxBackoffMs : Nat) (failures : List Bool) : Nat :=
  failures.foldl (fun d f => tickNextDelay intervalMs maxBackoffMs d f) intervalMs

/-- The 16-point compass table of src/app.js line 77. -/
def dirs : List String :=
  ["N", "NNE", "NE", "ENE", "E", "ESE", "SE", "SSE",
   "S", "SSW", "SW", "WSW", "W", "WNW", "NW", "NNW"]

/-- `Math.round(d / 22.5)` for an integer `d`, in exact integer
arithmetic: `Math.round` maps `x` to `⌊x + 1/2⌋` (halves go up), so with
`x = d/22.5 = 4*d/90` the result is `⌊(4*d + 45)/90⌋`, which is
`(4 * d + 45) / 90` in (flooring) `Int` division.  This is exact for the
source's doubles: `d/22.5` has denominator `45`, so it is never within a
double rounding error of a half-integer boundary. -/
def jsRoundDiv (d : Int) : Int :=
  (4 * d + 45) / 90

/-- `degToCompass` (src/app.js lines 74-80) over integer degree values
(`Int.tmod` is the JS `%`, which truncates toward zero).  A missing wind
direction gives `null`. -/
def degToCompass (deg : Option Int) : Option String :=
  match deg with
  | none => none
  | some d0 =>
    let d : Int := ((d0.tmod 360) + 360).tmod 360
    let idx : Int := (jsRoundDiv d).tmod 16
    some (dirs.getD idx.toNat "")

/-- A constant timestamp parse used to instantiate concrete scenarios. -/
def parseZero : String → Int := fun _ => 0

/-- A feature carrying only a severity, for the sorting scenario. -/
def sevOnly (s : String) : Feature := { properties := { severity := some s } }

/-- Claim C8 counterexample feature: no id anywhere, `sent` strictly later
than `onset`. -/
def cex8 : Feature :=
  { properties :=
      { event := some "Flood"
        sent := some "2024-05-02T00:00:00Z"
        onset := some "2024-05-01T00:00:00Z" } }

/-- Point-query copy of a duplicated alert (scenario for C1). -/
def dupPoint : Feature :=
  { fid := some "urn:oid:2.49.0.1.840.0.1", properties := { severity := some "Severe" } }

/-- Zone-query copy of the same alert with different content (scenario
for C1). -/
def dupZone : Feature :=
  { fid := some "urn:oid:2.49.0.1.840.0.1"
    properties := { severity := some "Extreme", ugc := some ["TX209"] } }

/-- Query outcomes for the C1 scenario: one zone result and one point
result carrying the duplicate. -/
def c1Results : List QueryResult :=
  [ { label := "zone:TX209", features := [dupZone] },
    { label := "point:30.5,-97.6", features := [dupPoint] } ]

/-- A zone-query feature whose UGC list is `["ZZ999"]` (scenario for C4). -/
def zz999Feature : Feature := { properties := { ugc := some ["ZZ999"] } }

/-- Query outcomes for the C4 scenario. -/
def c4Results : List QueryResult :=
  [ { label := "zone:TX209", features := [zz999Feature] } ]

/-- Station A's observation: temperature, humidity, wind speed and wind
direction all present (scenario for C3). -/
def obsA : ObsProps :=
  { temperature := some 20, relativeHumidity := some 50, windSpeed := some 10,
    windDirection := some 180, timestamp := some "2024-05-01T00:00:00Z" }

/-- Station B's observation: only a temperature (scenario for C3). -/
def obsB : ObsProps := { temperature := some 21 }

/-- The three settled station requests of the C3 scenario: A fulfilled,
B fulfilled, C rejected. -/
def c3Results : List Settled :=
  [ Settled.fulfilled { p := some obsA, id := "A" },
    Settled.fulfilled { p := some obsB, id := "B" },
    Settled.rejected ]

/-- A fully populated `/points` response for the C6 witness. -/
def pointsResp : PointsProps :=
  { forecastHourly := some "https://api.weather.gov/gridpoints/FWD/1,2/forecast/hourly"
    forecast := some "https://api.weather.gov/gridpoints/FWD/1,2/forecast"
    observationStations := some "https://api.weather.gov/gridpoints/FWD/1,2/stations" }

deriving instance DecidableEq for Except

/-! ## Helper lemmas -/

/-- A feature emitted by the deduplication loop has a key outside `seen`. -/
theorem mem_dedupByKey_not_seen {l : List Feature} {seen : List String} {f : Feature}
    (hf : f ∈ dedupByKey l seen) : seen.contains (alertKey f) = false := by
  induction l generalizing seen with
  | nil => simp [dedupByKey] at hf
  | cons f0 rest ih =>
    rw [dedupByKey] at hf
    by_cases h : seen.contains (alertKey f0)
    · rw [if_pos h] at hf
      exact ih hf
    · rw [if_neg h] at hf
      rcases List.mem_cons.mp hf with rfl | hf'
      · exact Bool.eq_false_iff.mpr h
      · have h2 := ih hf'
        simp only [List.contains_cons, Bool.or_eq_false_iff] at h2
        exact h2.2

/-- Every feature emitted by the deduplication loop is the first feature of
the input list carrying its key. -/
theorem mem_dedupByKey_find {l : List Feature} {seen : List String} {f : Feature}
    (hf : f ∈ dedupByKey l seen) :
    l.find? (fun g => alertKey g == alertKey f) = some f := by
  induction l generalizing seen with
  | nil => simp [dedupByKey] at hf
  | cons f0 rest ih =>
    rw [dedupByKey] at hf
    by_cases h : seen.contains (alertKey f0)
    · rw [if_pos h] at hf
      have hkey : seen.contains (alertKey f) = false := mem_dedupByKey_not_seen hf
      have hne : (alertKey f0 == alertKey f) = false := by
        rcases hbe : alertKey f0 == alertKey f with _ | _
        · rfl
        · rw [eq_of_beq hbe] at h
          rw [h] at hkey
          cases hkey
      rw [List.find?_cons_of_neg _ (by simp [hne])]
      exact ih hf
    · rw [if_neg h] at hf
      rcases List.mem_cons.mp hf with rfl | hf'
      · exact List.find?_cons_of_pos _ (by simp)
      · have hkey := mem_dedupByKey_not_seen hf'
        simp only [List.contains_cons, Bool.or_eq_false_iff, beq_eq_false_iff_ne] at hkey
        have hne : (alertKey f0 == alertKey f) = false := by
          simpa [beq_eq_false_iff_ne] using fun e => hkey.1 e.symm
        rw [List.find?_cons_of_neg _ (by simp [hne])]
        exact ih hf'

/-- Every input feature's key is either already in `seen` or appears on some
feature emitted by the deduplication loop. -/
theorem mem_dedupByKey_covers {l : List Feature} {seen : List String} {f : Feature}
    (hf : f ∈ l) :
    seen.contains (alertKey f) = true ∨
      ∃ g ∈ dedupByKey l seen, alertKey g = alertKey f := by
  induction l generalizing seen with
  | nil => simp at hf
  | cons f0 rest ih =>
    rw [dedupByKey]
    by_cases h : seen.contains (alertKey f0)
    · rw [if_pos h]
      rcases List.mem_cons.mp hf with rfl | hf'
      · exact Or.inl h
      · exact ih hf'
    · rw [if_neg h]
      rcases List.mem_cons.mp hf with rfl | hf'
      · exact Or.inr ⟨_, List.mem_cons_self _ _, rfl⟩
      · rcases @ih (alertKey f0 :: seen) hf' with hc | ⟨g, hg, hgk⟩
        · simp only [List.contains_cons, Bool.or_eq_true, beq_iff_eq] at hc
          rcases hc with hc | hc
          · exact Or.inr ⟨f0, List.mem_cons_self _ _, hc.symm⟩
          · exact Or.inl hc
        · exact Or.inr ⟨g, List.mem_cons_of_mem f0 hg, hgk⟩

/-- `insertSorted` inserts its element somewhere in the list. -/
theorem insertSorted_perm {α : Type} (le : α → α → Bool) (a : α) (l : List α) :
    (insertSorted le a l).Perm (a :: l) := by
  induction l with
  | nil => exact List.Perm.refl _
  | cons b bs ih =>
    rw [insertSorted]
    by_cases h : le b a
    · rw [if_pos h]
      exact (ih.cons b).trans (List.Perm.swap a b bs)
    · rw [if_neg h]

/-- `stableSort` permutes its input. -/
theorem stableSort_perm {α : Type} (le : α → α → Bool) (l : List α) :
    (stableSort le l).Perm l := by
  have aux : ∀ (l acc : List α),
      (l.foldl (fun acc a => insertSorted le a acc) acc).Perm (acc ++ l) := by
    intro l
    induction l with
    | nil => intro acc; simp
    | cons a as ih =>
      intro acc
      rw [List.foldl_cons]
      refine (ih (insertSorted le a acc)).trans ?_
      refine (((insertSorted_perm le a acc).append_right as).trans ?_)
      exact (List.perm_middle).symm
  simpa using aux l []

/-- `insertSorted` preserves sortedness for a transitive, total Boolean
preorder. -/
theorem insertSorted_pairwise {α : Type} {le : α → α → Bool}
    (htrans : ∀ a b c, le a b = true → le b c = true → le a c = true)
    (htotal : ∀ a b, le a b = true ∨ le b a = true)
    (a : α) {l : List α} (hl : l.Pairwise (fun x y => le x y = true)) :
    (insertSorted le a l).Pairwise (fun x y => le x y = true) := by
  induction l with
  | nil => simp [insertSorted]
  | cons b bs ih =>
    rw [insertSorted]
    rcases List.pairwise_cons.mp hl with ⟨hb, hbs⟩
    by_cases h : le b a
    · rw [if_pos h]
      refine List.pairwise_cons.mpr ⟨fun y hy => ?_, ih hbs⟩
      have hy' : y ∈ a :: bs := (insertSorted_perm le a bs).mem_iff.mp hy
      rcases List.mem_cons.mp hy' with rfl | hy''
      · exact h
      · exact hb y hy''
    · rw [if_neg h]
      have hab : le a b = true := by
        rcases htotal a b with h1 | h1
        · exact h1
        · exact absurd h1 h
      refine List.pairwise_cons.mpr ⟨fun y hy => ?_, hl⟩
      rcases List.mem_cons.mp hy with rfl | hy'
      · exact hab
      · exact htrans a b y hab (hb y hy')

/-- `stableSort` sorts, for a transitive, total Boolean preorder. -/
theorem stableSort_pairwise {α : Type} {le : α → α → Bool}
    (htrans : ∀ a b c, le a b = true → le b c = true → le a c = true)
    (htotal : ∀ a b, le a b = true ∨ le b a = true) (l : List α) :
    (stableSort le l).Pairwise (fun x y => le x y = true) := by
  have aux : ∀ (l acc : List α), acc.Pairwise (fun x y => le x y = true) →
      (l.foldl (fun acc a => insertSorted le a acc) acc).Pairwise
        (fun x y => le x y = true) := by
    intro l
    induction l with
    | nil => intro acc h; simpa using h
    | cons a as ih =>
      intro acc h
      rw [List.foldl_cons]
      exact ih _ (insertSorted_pairwise htrans htotal a h)
  exact aux l [] (List.Pairwise.nil)

/-- The head of a `stableSort` output is `le` every input element. -/
theorem stableSort_head_le {α : Type} {le : α → α → Bool}
    (htrans : ∀ a b c, le a b = true → le b c = true → le a c = true)
    (htotal : ∀ a b, le a b = true ∨ le b a = true)
    {l t : List α} {u : α} (h : stableSort le l = u :: t) :
    ∀ q ∈ l, le u q = true := by
  intro q hq
  have hmem : q ∈ u :: t := by
    rw [← h]
    exact (stableSort_perm le l).symm.mem_iff.mp hq
  rcases List.mem_cons.mp hmem with rfl | hq'
  · rcases htotal q q with h1 | h1 <;> exact h1
  · have hs := stableSort_pairwise htrans htotal l
    rw [h] at hs
    exact (List.pairwise_cons.mp hs).1 q hq'

/-- The alert comparator is transitive. -/
theorem alertLE_trans (parse : String → Int) (now : Int) :
    ∀ a b c, alertLE parse now a b = true → alertLE parse now b c = true →
      alertLE parse now a c = true := by
  intro a b c hab hbc
  simp only [alertLE, Bool.or_eq_true, Bool.and_eq_true, decide_eq_true_eq] at *
  omega

/-- The alert comparator is total. -/
theorem alertLE_total (parse : String → Int) (now : Int) :
    ∀ a b, alertLE parse now a b = true ∨ alertLE parse now b a = true := by
  intro a b
  simp only [alertLE, Bool.or_eq_true, Bool.and_eq_true, decide_eq_true_eq]
  omega

/-- The observation comparator is transitive. -/
theorem obsLE_trans (parse : String → Int) (now : Int) :
    ∀ a b c, obsLE parse now a b = true → obsLE parse now b c = true →
      obsLE parse now a c = true := by
  intro a b c hab hbc
  simp only [obsLE, Bool.or_eq_true, Bool.and_eq_true, decide_eq_true_eq] at *
  omega

/-- The observation comparator is total. -/
theorem obsLE_total (parse : String → Int) (now : Int) :
    ∀ a b, obsLE parse now a b = true ∨ obsLE parse now b a = true := by
  intro a b
  simp only [obsLE, Bool.or_eq_true, Bool.and_eq_true, decide_eq_true_eq]
  omega

/-- The keys of the deduplication loop's output are pairwise distinct. -/
theorem dedupByKey_nodup (l : List Feature) (seen : List String) :
    ((dedupByKey l seen).map alertKey).Nodup := by
  induction l generalizing seen with
  | nil => simp [dedupByKey]
  | cons f0 rest ih =>
    rw [dedupByKey]
    by_cases h : seen.contains (alertKey f0)
    · rw [if_pos h]
      exact ih _
    · rw [if_neg h]
      simp only [List.map_cons, List.nodup_cons]
      refine ⟨fun hmem => ?_, ih _⟩
      rcases List.mem_map.mp hmem with ⟨g, hg, hgk⟩
      have h2 := mem_dedupByKey_not_seen hg
      simp only [List.contains_cons, Bool.or_eq_false_iff, beq_eq_false_iff_ne] at h2
      exact h2.1 hgk

end Weather

namespace Weather

/-! ## Claim theorems -/

/-- Claim C1: in every merged alert list built from a point-query result
followed by the filtered zone-query results, features sharing an identity
key are collapsed to exactly one — the first in point-then-zone order —
so the returned sequence has pairwise distinct identity keys, every
returned feature is the first occurrence of its key in the merged input,
and every merged feature's key is still represented. -/
theorem C1_dedup_first_occurrence (zoneCodes : List String) (results : List QueryResult) :
    ((fetchAlertsCombined zoneCodes results).map alertKey).Nodup ∧
    (∀ f ∈ fetchAlertsCombined zoneCodes results,
        (mergedAll zoneCodes results).find? (fun g => alertKey g == alertKey f) = some f) ∧
    (∀ f ∈ mergedAll zoneCodes results,
        ∃ g ∈ fetchAlertsCombined zoneCodes results, alertKey g = alertKey f) := by
  refine ⟨dedupByKey_nodup _ _, fun f hf => mem_dedupByKey_find hf, fun f hf => ?_⟩
  rcases @mem_dedupByKey_covers _ [] _ hf with hc | hex
  · simp at hc
  · exact hex

/-- Claim C1 witness: the concrete duplicate scenario, with the point-query
copy kept and the zone-query copy dropped. -/
theorem C1_dedup_first_occurrence_witness :
    ((fetchAlertsCombined ["TX209"] c1Results).map alertKey).Nodup ∧
    (mergedAll ["TX209"] c1Results).find? (fun g => alertKey g == alertKey dupPoint) =
      some dupPoint ∧
    ∃ g ∈ fetchAlertsCombined ["TX209"] c1Results, alertKey g = alertKey dupZone :=
  ⟨(C1_dedup_first_occurrence ["TX209"] c1Results).1,
   (C1_dedup_first_occurrence ["TX209"] c1Results).2.1 dupPoint (by decide),
   (C1_dedup_first_occurrence ["TX209"] c1Results).2.2 dupZone (by decide)⟩

/-- Claim C4: every feature of the merged result is either a point-query
feature (kept without the zone filter) or a zone-query feature whose own
UGC zone list meets the point's resolved zone-code set; concretely, a
zone-query feature with UGC list `["ZZ999"]` is filtered out when the
resolved zone-code set is `["TX209", "TX453"]`. -/
theorem C4_zone_filter (zoneCodes : List String) (results : List QueryResult) :
    (∀ f ∈ fetchAlertsCombined zoneCodes results,
        f ∈ pointFeatures results ∨
          (f ∈ zoneFeaturesAll results ∧
           (zonesFromAlert f).any (fun z => zoneCodes.contains z) = true)) ∧
    fetchAlertsCombined ["TX209", "TX453"] c4Results = [] := by
  refine ⟨fun f hf => ?_, by decide⟩
  have hfind := mem_dedupByKey_find hf
  have hmem : f ∈ mergedAll zoneCodes results := List.mem_of_find?_eq_some hfind
  rcases List.mem_append.mp hmem with h | h
  · exact Or.inl h
  · right
    simp only [zoneFiltered] at h
    exact List.mem_filter.mp h

/-- Claim C4 witness: a merged feature from the C1 scenario is accounted
for by the point-or-intersecting-zone disjunction. -/
theorem C4_zone_filter_witness :
    dupPoint ∈ pointFeatures c1Results ∨
      (dupPoint ∈ zoneFeaturesAll c1Results ∧
       (zonesFromAlert dupPoint).any (fun z => (["TX209"] : List String).contains z) = true) :=
  (C4_zone_filter ["TX209"] c1Results).1 dupPoint (by decide)

/-- Claim C7: when every issued query yields zero features, the aggregation
completes with the empty sequence rather than an error. -/
theorem C7_empty_is_ok (zoneCodes : List String) (results : List QueryResult)
    (h : ∀ r ∈ results, r.features = []) :
    fetchAlertsCombined zoneCodes results = [] := by
  have hp : pointFeatures results = [] := by
    unfold pointFeatures
    cases hfind : results.find? (fun r => jsStartsWith r.label "point:") with
    | none => simp
    | some r => simp [h r (List.mem_of_find?_eq_some hfind)]
  have hz : zoneFeaturesAll results = [] := by
    unfold zoneFeaturesAll
    rw [List.flatMap_eq_nil_iff]
    intro r hr
    exact h r (List.mem_of_mem_filter hr)
  simp [fetchAlertsCombined, mergedAll, zoneFiltered, hp, hz, dedupByKey]

/-- Claim C7 witness: one empty point query and one empty (failed) zone
query aggregate to the empty sequence. -/
theorem C7_empty_is_ok_witness :
    fetchAlertsCombined ["TX209"]
      [ { label := "point:30.5,-97.6", features := [] },
        { label := "zone:TX209", ok := false, features := [] } ] = [] :=
  C7_empty_is_ok ["TX209"] _ (by decide)

/-- Claim C2: the deduplicated alert set delivered to rendering is sorted
by severity descending with the numeric order Extreme=5, Severe=4,
Moderate=3, Minor=2, Unknown=1, unrecognized=0, and within equal severity
ascending by the onset-else-effective-else-now sort time; in particular
severities [Minor, Extreme, Severe, Unknown] come out as
[Extreme, Severe, Minor, Unknown]. -/
theorem C2_severity_sort (parse : String → Int) (now : Int)
    (zoneCodes : List String) (results : List QueryResult) :
    (sortAlerts parse now (fetchAlertsCombined zoneCodes results)).Pairwise
      (fun a b =>
        SEVERITY_ORDER b.properties.severity < SEVERITY_ORDER a.properties.severity ∨
        (SEVERITY_ORDER a.properties.severity = SEVERITY_ORDER b.properties.severity ∧
         sortTime parse now a ≤ sortTime parse now b)) ∧
    (sortAlerts parse now (fetchAlertsCombined zoneCodes results)).Perm
      (fetchAlertsCombined zoneCodes results) ∧
    SEVERITY_ORDER (some "Extreme") = 5 ∧ SEVERITY_ORDER (some "Severe") = 4 ∧
    SEVERITY_ORDER (some "Moderate") = 3 ∧ SEVERITY_ORDER (some "Minor") = 2 ∧
    SEVERITY_ORDER (some "Unknown") = 1 ∧ SEVERITY_ORDER (some "Watch") = 0 ∧
    SEVERITY_ORDER none = 0 ∧
    sortAlerts parseZero 0
        [sevOnly "Minor", sevOnly "Extreme", sevOnly "Severe", sevOnly "Unknown"] =
      [sevOnly "Extreme", sevOnly "Severe", sevOnly "Minor", sevOnly "Unknown"] := by
  refine ⟨?_, stableSort_perm _ _, rfl, rfl, rfl, rfl, rfl, rfl, rfl, by decide⟩
  have hs := stableSort_pairwise (alertLE_trans parse now) (alertLE_total parse now)
    (fetchAlertsCombined zoneCodes results)
  refine hs.imp ?_
  intro a b h
  simpa only [alertLE, Bool.or_eq_true, Bool.and_eq_true, decide_eq_true_eq] using h

/-- Claim C3: the observation selector only considers fulfilled requests
with a usable properties body; the returned observation is one of those,
its score is maximal among them, and at equal score its timestamp is no
later than any competitor; concretely, with station A fully populated,
station B temperature-only and station C failed, A's observation is
returned. -/
theorem C3_best_observation (parse : String → Int) (now : Int)
    (results : List Settled) (p : ObsProps)
    (h : getNearestObservationParallel parse now results = Except.ok p) :
    (∃ v : ObsValue, Settled.fulfilled v ∈ results ∧ v.p = some p) ∧
    (∀ w : ObsValue, Settled.fulfilled w ∈ results → ∀ q : ObsProps, w.p = some q →
        score q ≤ score p ∧
        (score q = score p → obsTime parse now p ≤ obsTime parse now q)) ∧
    getNearestObservationParallel parseZero 0 c3Results = Except.ok obsA := by
  unfold getNearestObservationParallel at h
  cases hs : stableSort (obsLE parse now) (usableOf results) with
  | nil => rw [hs] at h; cases h
  | cons u t =>
    rw [hs] at h
    have hup : u.p.getD {} = p := by
      simpa using h
    have humem : u ∈ usableOf results := by
      have : u ∈ u :: t := List.mem_cons_self u t
      rw [← hs] at this
      exact (stableSort_perm (obsLE parse now) (usableOf results)).mem_iff.mp this
    have husable : ∀ w : ObsValue, Settled.fulfilled w ∈ results → w.p.isSome = true →
        w ∈ usableOf results := by
      intro w hw hwp
      unfold usableOf
      refine List.mem_filterMap.mpr ⟨Settled.fulfilled w, hw, ?_⟩
      simp [hwp]
    have hu_origin : ∃ v : ObsValue, Settled.fulfilled v ∈ results ∧ v.p = some p := by
      unfold usableOf at humem
      rcases List.mem_filterMap.mp humem with ⟨r, hr, hru⟩
      cases r with
      | rejected => simp at hru
      | fulfilled v =>
        cases hvp : v.p with
        | none => simp [hvp] at hru
        | some q =>
          simp only [hvp, Option.isSome_some, if_true] at hru
          have hvu : v = u := by injection hru
          refine ⟨v, hr, ?_⟩
          rw [hvu] at hvp
          rw [hvp] at hup
          simp only [Option.getD_some] at hup
          rw [hvu, hvp, hup]
    refine ⟨hu_origin, fun w hw q hq => ?_, by decide⟩
    have hwp : w.p.isSome = true := by rw [hq]; rfl
    have hwmem : w ∈ usableOf results := husable w hw hwp
    have hle : obsLE parse now u w = true :=
      stableSort_head_le (obsLE_trans parse now) (obsLE_total parse now) hs w hwmem
    have hwq : w.p.getD {} = q := by rw [hq]; rfl
    simp only [obsLE, Bool.or_eq_true, Bool.and_eq_true, decide_eq_true_eq] at hle
    rw [hup, hwq] at hle
    constructor
    · omega
    · intro hscore
      rcases hle with h1 | ⟨h1, h2⟩
      · omega
      · exact h2

/-- Claim C3 witness: the theorem applied to the concrete A/B/C scenario. -/
theorem C3_best_observation_witness :
    getNearestObservationParallel parseZero 0 c3Results = Except.ok obsA ∧
    (∃ v : ObsValue, Settled.fulfilled v ∈ c3Results ∧ v.p = some obsA) ∧
    (score obsB ≤ score obsA ∧
      (score obsB = score obsA → obsTime parseZero 0 obsA ≤ obsTime parseZero 0 obsB)) :=
  ⟨by decide,
   (C3_best_observation parseZero 0 c3Results obsA (by decide)).1,
   (C3_best_observation parseZero 0 c3Results obsA (by decide)).2.1
     { p := some obsB, id := "B" } (by decide) obsB rfl⟩

/-- Claim C5: a successful tick resets the next delay to the base
interval and a failed tick doubles the current delay capped at
`maxBackoffMs`; with `intervalMs = 60000` and `maxBackoffMs = 300000`,
starting from the base interval, three consecutive failures produce next
delays 120000, 240000, and 300000 (480000 clamped to the cap). -/
theorem C5_backoff_policy :
    (∀ intervalMs maxBackoffMs nextDelay : Nat,
        tickNextDelay intervalMs maxBackoffMs nextDelay false = intervalMs) ∧
    (∀ intervalMs maxBackoffMs nextDelay : Nat,
        tickNextDelay intervalMs maxBackoffMs nextDelay true =
          min (nextDelay * 2) maxBackoffMs) ∧
    runTicks 60000 300000 [true] = 120000 ∧
    runTicks 60000 300000 [true, true] = 240000 ∧
    runTicks 60000 300000 [true, true, true] = 300000 ∧
    240000 * 2 = 480000 :=
  ⟨fun _ _ _ => rfl, fun _ _ _ => rfl, by decide, by decide, by decide, by decide⟩

/-- Claim C10 auxiliary: folding ticks from any delay inside
`[intervalMs, maxBackoffMs]` stays inside that interval. -/
theorem runTicks_bounded_aux (intervalMs maxBackoffMs : Nat)
    (h : intervalMs ≤ maxBackoffMs) :
    ∀ (failures : List Bool) (d : Nat), intervalMs ≤ d → d ≤ maxBackoffMs →
      intervalMs ≤ failures.foldl (fun d f => tickNextDelay intervalMs maxBackoffMs d f) d ∧
      failures.foldl (fun d f => tickNextDelay intervalMs maxBackoffMs d f) d ≤ maxBackoffMs := by
  intro failures
  induction failures with
  | nil => intro d h1 h2; simpa using ⟨h1, h2⟩
  | cons b bs ih =>
    intro d h1 h2
    rw [List.foldl_cons]
    apply ih
    · unfold tickNextDelay
      cases b
      · simp
      · simp only [if_true]
        omega
    · unfold tickNextDelay
      cases b
      · simpa using h
      · simp only [if_true]
        omega

/-- Claim C10 (implicit): under `intervalMs ≤ maxBackoffMs` the scheduler's
next-delay value always lies in `[intervalMs, maxBackoffMs]`: it starts at
`intervalMs`, each success resets it there, and each failure moves it to
`min (2·delay) maxBackoffMs`. -/
theorem C10_delay_within_bounds (intervalMs maxBackoffMs : Nat)
    (h : intervalMs ≤ maxBackoffMs) (failures : List Bool) :
    intervalMs ≤ runTicks intervalMs maxBackoffMs failures ∧
    runTicks intervalMs maxBackoffMs failures ≤ maxBackoffMs :=
  runTicks_bounded_aux intervalMs maxBackoffMs h failures intervalMs le_rfl h

/-- Claim C10 witness: the bounds at a concrete failure/success mix. -/
theorem C10_delay_within_bounds_witness :
    60000 ≤ 300000 ∧
    60000 ≤ runTicks 60000 300000 [true, true, false, true, true, true, true] ∧
    runTicks 60000 300000 [true, true, false, true, true, true, true] ≤ 300000 :=
  ⟨by decide,
   (C10_delay_within_bounds 60000 300000 (by decide) [true, true, false, true, true, true, true]).1,
   (C10_delay_within_bounds 60000 300000 (by decide) [true, true, false, true, true, true, true]).2⟩

/-- C6 auxiliary: a cache hit returns the cached value with no network
call and no cache change. -/
theorem resolve_cache_hit (cache : List (String × EndpointSet)) (lat lon : String)
    (points : PointsProps) (v : EndpointSet)
    (h : cacheGet cache (keyFromLatLon lat lon) = some v) :
    resolveEndpointsForPoint cache lat lon points = ⟨Except.ok v, cache, 0⟩ := by
  simp only [resolveEndpointsForPoint, h]

/-- C6 auxiliary: appending a binding for an absent key makes it found. -/
theorem cacheGet_cacheSet_self (c : List (String × EndpointSet)) (k : String)
    (v : EndpointSet) (h : cacheGet c k = none) :
    cacheGet (cacheSet c k v) k = some v := by
  induction c with
  | nil =>
    simp [cacheGet, cacheSet]
  | cons a c ih =>
    by_cases hak : (a.1 == k) = true
    · exfalso
      unfold cacheGet at h
      rw [@List.find?_cons_of_pos _ (fun e => e.1 == k) a c hak] at h
      simp at h
    · unfold cacheGet at h ⊢
      unfold cacheSet
      rw [@List.find?_cons_of_neg _ (fun e => e.1 == k) a c hak] at h
      rw [List.cons_append,
        @List.find?_cons_of_neg _ (fun e => e.1 == k) a (c ++ [(k, v)]) hak]
      exact ih h

/-- C6 auxiliary: after a successful resolution, the key is cached with the
returned value. -/
theorem resolve_ok_caches (cache : List (String × EndpointSet)) (lat lon : String)
    (points : PointsProps) (v : EndpointSet)
    (h : (resolveEndpointsForPoint cache lat lon points).result = Except.ok v) :
    cacheGet (resolveEndpointsForPoint cache lat lon points).cache
      (keyFromLatLon lat lon) = some v := by
  cases hc : cacheGet cache (keyFromLatLon lat lon) with
  | some w =>
    simp only [resolveEndpointsForPoint, hc, Except.ok.injEq] at h ⊢
    rw [← h]
  | none =>
    by_cases hok : (strTruthy points.forecastHourly && strTruthy points.forecast &&
        strTruthy points.observationStations) = true
    · simp only [resolveEndpointsForPoint, hc, hok, if_true, Except.ok.injEq] at h ⊢
      rw [← h]
      exact cacheGet_cacheSet_self cache (keyFromLatLon lat lon) _ hc
    · simp only [resolveEndpointsForPoint, hc, hok, if_false] at h
      cases h

/-- Claim C6: once the resolver has successfully resolved a coordinate
pair, a second call with the identical pair returns the identical
`EndpointSet` value from the cache, performs no network request, and
leaves the cache unchanged. -/
theorem C6_cache_idempotent (cache : List (String × EndpointSet)) (lat lon : String)
    (points1 points2 : PointsProps) (v : EndpointSet)
    (h : (resolveEndpointsForPoint cache lat lon points1).result = Except.ok v) :
    resolveEndpointsForPoint (resolveEndpointsForPoint cache lat lon points1).cache
        lat lon points2 =
      ⟨Except.ok v, (resolveEndpointsForPoint cache lat lon points1).cache, 0⟩ :=
  resolve_cache_hit _ lat lon points2 v (resolve_ok_caches cache lat lon points1 v h)

/-- Claim C6 witness: the concrete first-miss-then-hit run. -/
theorem C6_cache_idempotent_witness :
    (resolveEndpointsForPoint [] "30.5" "-97.6" pointsResp).result =
      Except.ok ⟨"https://api.weather.gov/gridpoints/FWD/1,2/forecast/hourly",
        "https://api.weather.gov/gridpoints/FWD/1,2/forecast",
        "https://api.weather.gov/gridpoints/FWD/1,2/stations"⟩ ∧
    resolveEndpointsForPoint (resolveEndpointsForPoint [] "30.5" "-97.6" pointsResp).cache
        "30.5" "-97.6" { } =
      ⟨Except.ok ⟨"https://api.weather.gov/gridpoints/FWD/1,2/forecast/hourly",
          "https://api.weather.gov/gridpoints/FWD/1,2/forecast",
          "https://api.weather.gov/gridpoints/FWD/1,2/stations"⟩,
        (resolveEndpointsForPoint [] "30.5" "-97.6" pointsResp).cache, 0⟩ :=
  ⟨by decide,
   C6_cache_idempotent [] "30.5" "-97.6" pointsResp { } _ (by decide)⟩

/-- C8 auxiliary: `firstTruthy` peels one `||` link at a time. -/
theorem firstTruthy_cons (o : Option String) (rest : List (Option String)) :
    firstTruthy (o :: rest) = if strTruthy o then o else firstTruthy rest := by
  cases o with
  | none => simp [firstTruthy, strTruthy]
  | some s =>
    by_cases hs : s = ""
    · subst hs
      simp [firstTruthy, strTruthy]
    · simp [firstTruthy, strTruthy, hs]

/-- C8 auxiliary: the `Option.filter`/`getD` form of the event fallback
agrees with the conditional form of the source. -/
theorem event_fallback_eq (o : Option String) :
    (o.filter (fun s => s ≠ "")).getD "Unknown" =
      (if strTruthy o then o.getD "" else "Unknown") := by
  cases o with
  | none => simp [strTruthy]
  | some s =>
    by_cases hs : s = ""
    · subst hs
      simp [strTruthy, Option.filter]
    · simp [strTruthy, Option.filter, hs]

/-- Claim C8 counterexample: a feature with no id whose `sent` timestamp is
strictly later than its `onset` timestamp.  The code keys it by `sent`
(the first present timestamp in the fixed order sent, effective, onset),
not by its chronologically earliest timestamp as the claim states, so the
claim's reading `alertKeySpec` disagrees with the code's `alertKey`. -/
theorem C8_earliest_counterexample :
    alertKey cex8 ≠ alertKeySpec cex8 ∧
    alertKey cex8 = "Flood|2024-05-02T00:00:00Z" ∧
    alertKeySpec cex8 = "Flood|2024-05-01T00:00:00Z" := by
  refine ⟨?_, by decide, by decide⟩
  decide

/-- Claim C8 (amended): the identity key is the feature id, else
`properties.id`, else `properties["@id"]` (each when present and
non-empty); otherwise it is the event name (defaulting to `"Unknown"`)
joined by `"|"` to the first present of the `sent`, `effective`, `onset`
timestamps, in that fixed order (empty when none is present). -/
theorem C8_identity_key (f : Feature) : alertKey f = alertKeyAmended f := by
  unfold alertKey alertKeyAmended
  rw [firstTruthy_cons, firstTruthy_cons, firstTruthy_cons,
    firstTruthy_cons, firstTruthy_cons, firstTruthy_cons]
  rw [event_fallback_eq]
  by_cases h1 : strTruthy f.fid
  · cases hf : f.fid with
    | none => rw [hf] at h1; simp [strTruthy] at h1
    | some s => simp [hf, hf ▸ h1]
  · simp only [h1, if_false, Bool.false_eq_true]
    by_cases h2 : strTruthy f.properties.pid
    · cases hp : f.properties.pid with
      | none => rw [hp] at h2; simp [strTruthy] at h2
      | some s => simp [hp, hp ▸ h2]
    · simp only [h2, if_false, Bool.false_eq_true]
      by_cases h3 : strTruthy f.properties.atId
      · cases ha : f.properties.atId with
        | none => rw [ha] at h3; simp [strTruthy] at h3
        | some s => simp [ha, ha ▸ h3]
      · simp only [h3, if_false, Bool.false_eq_true, firstTruthy]
        simp

/-- C9 auxiliary: `Int.tmod` of a negation is the negated `tmod`. -/
theorem neg_tmod_eq (e b : Int) : (-e).tmod b = -(e.tmod b) := by
  rw [Int.tmod_def, Int.tmod_def, Int.neg_tdiv]
  ring

/-- C9 auxiliary: the JS normalization `(d % 360 + 360) % 360` (with the
truncating `%`) equals the mathematical residue `d % 360` (`Int.emod`). -/
theorem jsNorm_eq_emod (d : Int) : ((d.tmod 360) + 360).tmod 360 = d % 360 := by
  rcases le_or_lt 0 d with h | h
  · have h1 : d.tmod 360 = d % 360 := Int.tmod_eq_emod h (by norm_num)
    have h2 : (0 : Int) ≤ d % 360 := Int.emod_nonneg d (by norm_num)
    rw [h1, Int.tmod_eq_emod (by omega) (by norm_num)]
    omega
  · have h1 : d.tmod 360 = -((-d).tmod 360) := by
      conv_lhs => rw [show d = -(-d) by ring]
      rw [neg_tmod_eq]
    have h2 : (-d).tmod 360 = (-d) % 360 := Int.tmod_eq_emod (by omega) (by norm_num)
    have h3 : (0 : Int) ≤ (-d) % 360 := Int.emod_nonneg _ (by norm_num)
    have h4 : (-d) % 360 < 360 := Int.emod_lt_of_pos _ (by norm_num)
    rw [h1, h2, Int.tmod_eq_emod (by omega) (by norm_num)]
    omega

/-- Claim C9: the degrees-to-compass conversion is periodic with period
360 for every integer degree value, and the fixed 16-entry table starting
at N going clockwise is indexed as the source computes it; spot values:
0 → N, 90 → E, 195 → SSW, -45 → NW. -/
theorem C9_compass_periodic :
    (∀ (d k : Int), degToCompass (some (d + 360 * k)) = degToCompass (some d)) ∧
    degToCompass (some 0) = some "N" ∧
    degToCompass (some 90) = some "E" ∧
    degToCompass (some 195) = some "SSW" ∧
    degToCompass (some (-45)) = some "NW" ∧
    degToCompass none = none := by
  refine ⟨fun d k => ?_, by decide, by decide, by decide, by decide, rfl⟩
  simp only [degToCompass]
  rw [jsNorm_eq_emod, jsNorm_eq_emod]
  have h : (d + 360 * k) % 360 = d % 360 := by omega
  rw [h]

end Weather
